import Mathlib

/-!
Shallow embedding of `src/lib/RateLimiterRedis.js` (node-rate-limiter-flexible,
Redis store adapter) together with theorems checking the natural-language
specification against it.

The adapter talks to an external Redis store through a client object.  We model:

* JavaScript values that flow through replies (`JsVal`), including the
  `undefined` produced by destructuring short arrays and the NaN produced by
  `parseInt` on non-numeric input (modelled as `none : Option Int`);
* the Redis-side key space as a function from keys to an optional
  `(value, remaining TTL in ms)` entry (`Store`), with the commands issued by
  the adapter (`SET`, `INCRBY`, `PTTL`, `EXPIRE`, `GET`, `DEL`) given their
  Redis semantics;
* the Lua script `incrTtlLuaScript` as a single atomic state transformer
  (`incrTtlScriptSem`), invocable either through the named command registered
  by `defineCommand` or through a generic `EVAL` (`rlflxIncrCall` /
  `evalCall`);
* the client object's capabilities (`Client`): the ioredis `status` field, the
  node-redis `isReady()` probe, `defineCommand` support, and whether
  `multi().exec` wraps each sub-reply as an `[err, value]` pair (ioredis) or
  returns it flat (node-redis);
* each adapter operation (`_upsert`, `_get`, `_delete`) as a pure function
  returning the settled promise value, the post-state of the store, and the
  list of client commands that were issued (`OpOutcome`).
-/

set_option autoImplicit false

/-- A JavaScript value as it appears in store replies: numbers, strings,
`null`, `undefined`, and arrays. -/
inductive JsVal where
  | num (n : Int)
  | str (s : String)
  | null
  | undefined
  | arr (elems : List JsVal)

mutual

/-- Decidable equality on `JsVal` (the nested `List` occurrence blocks the
automatic derivation). -/
def jsValDecEq : (a b : JsVal) → Decidable (a = b)
  | .num n, .num m =>
    match decEq n m with
    | isTrue h => isTrue (by rw [h])
    | isFalse h => isFalse (fun he => h (JsVal.num.inj he))
  | .str s, .str t =>
    match decEq s t with
    | isTrue h => isTrue (by rw [h])
    | isFalse h => isFalse (fun he => h (JsVal.str.inj he))
  | .null, .null => isTrue rfl
  | .undefined, .undefined => isTrue rfl
  | .arr xs, .arr ys =>
    match jsValListDecEq xs ys with
    | isTrue h => isTrue (by rw [h])
    | isFalse h => isFalse (fun he => h (JsVal.arr.inj he))
  | .num _, .str _ => isFalse (fun h => JsVal.noConfusion h)
  | .num _, .null => isFalse (fun h => JsVal.noConfusion h)
  | .num _, .undefined => isFalse (fun h => JsVal.noConfusion h)
  | .num _, .arr _ => isFalse (fun h => JsVal.noConfusion h)
  | .str _, .num _ => isFalse (fun h => JsVal.noConfusion h)
  | .str _, .null => isFalse (fun h => JsVal.noConfusion h)
  | .str _, .undefined => isFalse (fun h => JsVal.noConfusion h)
  | .str _, .arr _ => isFalse (fun h => JsVal.noConfusion h)
  | .null, .num _ => isFalse (fun h => JsVal.noConfusion h)
  | .null, .str _ => isFalse (fun h => JsVal.noConfusion h)
  | .null, .undefined => isFalse (fun h => JsVal.noConfusion h)
  | .null, .arr _ => isFalse (fun h => JsVal.noConfusion h)
  | .undefined, .num _ => isFalse (fun h => JsVal.noConfusion h)
  | .undefined, .str _ => isFalse (fun h => JsVal.noConfusion h)
  | .undefined, .null => isFalse (fun h => JsVal.noConfusion h)
  | .undefined, .arr _ => isFalse (fun h => JsVal.noConfusion h)
  | .arr _, .num _ => isFalse (fun h => JsVal.noConfusion h)
  | .arr _, .str _ => isFalse (fun h => JsVal.noConfusion h)
  | .arr _, .null => isFalse (fun h => JsVal.noConfusion h)
  | .arr _, .undefined => isFalse (fun h => JsVal.noConfusion h)

/-- Decidable equality on lists of `JsVal`. -/
def jsValListDecEq : (as bs : List JsVal) → Decidable (as = bs)
  | [], [] => isTrue rfl
  | [], _ :: _ => isFalse (fun h => List.noConfusion h)
  | _ :: _, [] => isFalse (fun h => List.noConfusion h)
  | a :: as, b :: bs =>
    match jsValDecEq a b with
    | isFalse h => isFalse (fun he => h (List.cons.inj he).1)
    | isTrue h1 =>
      match jsValListDecEq as bs with
      | isTrue h2 => isTrue (by rw [h1, h2])
      | isFalse h2 => isFalse (fun he => h2 (List.cons.inj he).2)

end

instance : DecidableEq JsVal := jsValDecEq

instance {ε α : Type} [DecidableEq ε] [DecidableEq α] : DecidableEq (Except ε α) := fun a b =>
  match a, b with
  | .ok x, .ok y =>
    match decEq x y with
    | isTrue h => isTrue (by rw [h])
    | isFalse h => isFalse (fun he => h (Except.ok.inj he))
  | .error x, .error y =>
    match decEq x y with
    | isTrue h => isTrue (by rw [h])
    | isFalse h => isFalse (fun he => h (Except.error.inj he))
  | .ok _, .error _ => isFalse (fun h => Except.noConfusion h)
  | .error _, .ok _ => isFalse (fun h => Except.noConfusion h)

/-- `Array.isArray`. -/
def isJsArray : JsVal → Bool
  | .arr _ => true
  | _ => false

/-- Single character of a string at index `i`, as JS indexing/destructuring
yields it: a one-character string, or `undefined` past the end. -/
def charAtJs (s : String) (i : Nat) : JsVal :=
  match s.data.get? i with
  | some ch => .str (String.mk [ch])
  | none => .undefined

/-- `[, x] = v` in JS: the second element of an iterable.  Arrays and strings
are iterable; numbers, `null` and `undefined` are not and make the
destructuring throw a `TypeError`. -/
def jsSecondElem : JsVal → Except String JsVal
  | .arr xs => .ok (xs.getD 1 .undefined)
  | .str s => .ok (charAtJs s 1)
  | _ => .error "TypeError: value is not iterable"

/-- Decimal digit test on a character. -/
def isDigitChar (ch : Char) : Bool :=
  48 ≤ ch.toNat && ch.toNat ≤ 57

/-- Numeric value of a decimal digit character. -/
def digitValue (ch : Char) : Nat :=
  ch.toNat - 48

/-- Value of the maximal decimal-digit run at the head of `cs`, folded onto an
accumulator; a non-digit stops the scan, as in JS `parseInt`. -/
def parseDigitsAcc : List Char → Nat → Nat
  | [], acc => acc
  | ch :: rest, acc =>
    if isDigitChar ch then parseDigitsAcc rest (10 * acc + digitValue ch) else acc

/-- Parse a digit run with a given sign; `none` (NaN) when no digit leads. -/
def parseIntFrom (cs : List Char) (sign : Int) : Option Int :=
  match cs with
  | ch :: _ => if isDigitChar ch then some (sign * (parseDigitsAcc cs 0 : Int)) else none
  | [] => none

/-- JS `parseInt` on a string (radix 10): skip leading whitespace, optional
sign, then the maximal digit prefix; NaN (`none`) when no digits follow. -/
def jsParseIntChars (cs0 : List Char) : Option Int :=
  let cs := cs0.dropWhile (fun ch => ch == ' ' || ch == '\t' || ch == '\n' || ch == '\r')
  match cs with
  | '-' :: rest => parseIntFrom rest (-1)
  | '+' :: rest => parseIntFrom rest 1
  | _ => parseIntFrom cs 1

/-- JS `parseInt` on an arbitrary value.  `parseInt` stringifies its argument
first: integers round-trip; `null`/`undefined` stringify to non-numeric words
(NaN); an array stringifies to its comma-joined elements, so only a leading
numeric element contributes (the comma stops the digit scan). -/
def jsParseInt : JsVal → Option Int
  | .num n => some n
  | .str s => jsParseIntChars s.data
  | .null => none
  | .undefined => none
  | .arr (JsVal.num n :: _) => some n
  | .arr (JsVal.str s :: _) => jsParseIntChars s.data
  | .arr _ => none

/-- One Redis key's record: current integer value and, when an expiry is set,
the remaining TTL in milliseconds. -/
abbrev Entry := Int × Option Nat

/-- The Redis key space. -/
abbrev Store := String → Option Entry

/-- The empty key space. -/
def emptyStore : Store := fun _ => none

/-- `SET key value` (with optional `EX seconds`): overwrites the record; a
plain `SET` removes any existing expiry, `SET ... EX s` installs one of
`1000*s` ms. -/
def storeSet (st : Store) (k : String) (v : Int) (exSeconds : Option Nat) : Store :=
  fun k' => if k' = k then some (v, exSeconds.map (fun s => 1000 * s)) else st k'

/-- `INCRBY key points`: creates the key with value `points` and no expiry when
absent, otherwise adds to the value keeping the expiry; returns the new
value. -/
def storeIncrby (st : Store) (k : String) (p : Int) : Store × Int :=
  match st k with
  | none => (fun k' => if k' = k then some (p, none) else st k', p)
  | some (v, t) => (fun k' => if k' = k then some (v + p, t) else st k', v + p)

/-- `PTTL key`: remaining TTL in ms, `-1` when the key has no expiry, `-2` when
the key does not exist. -/
def storePttl (st : Store) (k : String) : Int :=
  match st k with
  | none => -2
  | some (_, none) => -1
  | some (_, some t) => (t : Int)

/-- `EXPIRE key seconds`: installs an expiry on an existing key. -/
def storeExpire (st : Store) (k : String) (seconds : Nat) : Store :=
  match st k with
  | none => st
  | some (v, _) => fun k' => if k' = k then some (v, some (1000 * seconds)) else st k'

/-- `DEL key`: removes the key, returning how many keys were removed. -/
def storeDel (st : Store) (k : String) : Store × Nat :=
  match st k with
  | none => (st, 0)
  | some _ => (fun k' => if k' = k then none else st k', 1)

/-- Wall-clock time passing: TTLs count down and keys whose TTL reaches zero
expire (disappear from the key space). -/
def elapse (ms : Nat) (st : Store) : Store :=
  fun k =>
    match st k with
    | some (v, some t) => if t ≤ ms then none else some (v, some (t - ms))
    | e => e

/-- The Lua script source, exactly as the adapter ships it (template literal
with escaped newlines, so each source line contributes a trailing space). -/
def incrTtlLuaScript : String :=
  "redis.call(\x27set\x27, KEYS[1], 0, \x27EX\x27, ARGV[2], \x27NX\x27) " ++
  "local consumed = redis.call(\x27incrby\x27, KEYS[1], ARGV[1]) " ++
  "local ttl = redis.call(\x27pttl\x27, KEYS[1]) " ++
  "if ttl == -1 then " ++
  "  redis.call(\x27expire\x27, KEYS[1], ARGV[2]) " ++
  "  ttl = 1000 * ARGV[2] " ++
  "end " ++
  "return \x7bconsumed, ttl\x7d "

/-- Semantics of the Lua script as one atomic server-side step:
`SET key 0 EX d NX`, then `INCRBY key points`, then `PTTL`, repairing a
missing TTL with `EXPIRE` and reporting `1000*d` in that case.  Returns the
post-state and the script's `(consumed, ttl)` reply. -/
def incrTtlScriptSem (st : Store) (k : String) (points : Int) (secDuration : Nat) :
    Store × Int × Int :=
  let st1 :=
    match st k with
    | none => storeSet st k 0 (some secDuration)
    | some _ => st
  let r := storeIncrby st1 k points
  let ttl := storePttl r.1 k
  if ttl = -1 then (storeExpire r.1 k secDuration, r.2, 1000 * (secDuration : Int))
  else (r.1, r.2, ttl)

/-- The store's generic script evaluation (`EVAL text numKeys key args...`).
The server can execute the one script this adapter ships; its semantics is
keyed on the exact script text and key count passed in. -/
def evalLua (lua : String) (numKeys : Nat) (st : Store) (k : String) (points : Int)
    (secDuration : Nat) : Option (Store × Int × Int) :=
  if lua = incrTtlLuaScript ∧ numKeys = 1 then some (incrTtlScriptSem st k points secDuration)
  else none

/-- A store client's capabilities, as the adapter probes them. -/
structure Client where
  /-- ioredis exposes a connection-state string in `status`; `none` models an
  absent or falsy field. -/
  status : Option String
  /-- node-redis exposes an `isReady()` function; `none` models its absence. -/
  isReady : Option Bool
  /-- whether `defineCommand` is a function (ioredis), so the constructor
  registered the named `rlflxIncr` command. -/
  hasDefineCommand : Bool
  /-- whether `multi().exec` wraps every sub-reply as an `[err, value]` pair
  (ioredis) instead of returning it flat (node-redis). -/
  wrapsMultiReplies : Bool
deriving DecidableEq, Repr

/-- The commands the constructor registered on the client: with
`defineCommand` support, `rlflxIncr` is backed by the Lua script with one key
argument. -/
def definedCommands (c : Client) (name : String) : Option (Nat × String) :=
  if c.hasDefineCommand ∧ name = "rlflxIncr" then some (1, incrTtlLuaScript) else none

/-- Invoking the named precompiled command `client.rlflxIncr(key, points,
secDuration)`: looks up the registered script and evaluates it. -/
def rlflxIncrCall (c : Client) (st : Store) (k : String) (points : Int) (secDuration : Nat) :
    Option (Store × Int × Int) :=
  match definedCommands c "rlflxIncr" with
  | some (nk, lua) => evalLua lua nk st k points secDuration
  | none => none

/-- Invoking `client.eval(incrTtlLuaScript, 1, key, points, secDuration)`. -/
def evalCall (st : Store) (k : String) (points : Int) (secDuration : Nat) :
    Option (Store × Int × Int) :=
  evalLua incrTtlLuaScript 1 st k points secDuration

/-- `_isRedisReady`: always true unless `rejectIfRedisNotReady` is set; then
an ioredis client with a truthy `status` other than `"ready"`, or a node-redis
client whose `isReady()` returns false, reports not ready. -/
def _isRedisReady (rejectIfRedisNotReady : Bool) (c : Client) : Bool :=
  if rejectIfRedisNotReady = false then true
  else if (match c.status with | some s => s != "" && s != "ready" | none => false) then false
  else if (match c.isReady with | some b => !b | none => false) then false
  else true

/-- Errors an operation can reject with. -/
inductive RLError where
  /-- `new Error(\x27Redis connection is not ready\x27)` from the readiness gate. -/
  | connectionNotReady
  /-- an error surfaced by the store itself. -/
  | storeError (msg : String)
deriving DecidableEq, Repr

/-- A client command issued over the wire. -/
inductive Cmd where
  | set (key : String) (value : Int) (exSeconds : Option Nat)
  | incrby (key : String) (points : Int)
  | pttl (key : String)
  | get (key : String)
  | del (key : String)
  | evalScript (lua : String) (numKeys : Nat) (key : String) (points : Int)
      (durationSeconds : Nat)
  | rlflxIncr (key : String) (points : Int) (durationSeconds : Nat)
deriving DecidableEq, Repr

/-- Outcome of one adapter operation: the settled promise value, the store
post-state, and the wire commands that were issued. -/
structure OpOutcome (α : Type) where
  result : Except RLError α
  store : Store
  cmds : List Cmd

/-- ioredis wraps each `multi().exec` sub-reply as `[err, value]` with a null
error slot; node-redis hands the value back flat. -/
def wrapIf (w : Bool) (v : JsVal) : JsVal :=
  if w then .arr [.null, v] else v

/-- `_upsert(rlKey, points, msDuration, forceExpire)`.  After the readiness
gate, `secDuration = Math.floor(msDuration / 1000)`; `forceExpire` runs a
`SET`(` EX` when `secDuration > 0`)`/PTTL` transaction, otherwise
`secDuration > 0` dispatches the Lua script (named command when registered,
generic eval otherwise) and `secDuration == 0` runs an `INCRBY/PTTL`
transaction. -/
def _upsert (c : Client) (rej : Bool) (st : Store) (rlKey : String) (points : Int)
    (msDuration : Nat) (forceExpire : Bool) : OpOutcome JsVal :=
  if _isRedisReady rej c = false then ⟨.error .connectionNotReady, st, []⟩
  else
    let secDuration := msDuration / 1000
    if forceExpire then
      let ex := if secDuration > 0 then some secDuration else none
      let st1 := storeSet st rlKey points ex
      let ttl := storePttl st1 rlKey
      ⟨.ok (.arr [wrapIf c.wrapsMultiReplies (.str "OK"),
                  wrapIf c.wrapsMultiReplies (.num ttl)]),
       st1, [.set rlKey points ex, .pttl rlKey]⟩
    else if secDuration > 0 then
      let r := incrTtlScriptSem st rlKey points secDuration
      ⟨.ok (.arr [.num r.2.1, .num r.2.2]), r.1,
       [if c.hasDefineCommand then Cmd.rlflxIncr rlKey points secDuration
        else Cmd.evalScript incrTtlLuaScript 1 rlKey points secDuration]⟩
    else
      let r := storeIncrby st rlKey points
      let ttl := storePttl r.1 rlKey
      ⟨.ok (.arr [wrapIf c.wrapsMultiReplies (.num r.2),
                  wrapIf c.wrapsMultiReplies (.num ttl)]),
       r.1, [.incrby rlKey points, .pttl rlKey]⟩

/-- `_get(rlKey)`: after the readiness gate, a `GET/PTTL` transaction; Redis
returns the stored integer as its decimal string, or a null reply when the key
is absent.  The adapter resolves `null` when the first reply element is
strictly `=== null`, and the raw reply array otherwise. -/
def _get (c : Client) (rej : Bool) (st : Store) (rlKey : String) :
    OpOutcome (Option JsVal) :=
  if _isRedisReady rej c = false then ⟨.error .connectionNotReady, st, []⟩
  else
    let getReply : JsVal :=
      match st rlKey with
      | none => .null
      | some (v, _) => .str (toString v)
    let res : List JsVal := [wrapIf c.wrapsMultiReplies getReply,
                             wrapIf c.wrapsMultiReplies (.num (storePttl st rlKey))]
    if res.getD 0 .undefined = JsVal.null then ⟨.ok none, st, [.get rlKey, .pttl rlKey]⟩
    else ⟨.ok (some (.arr res)), st, [.get rlKey, .pttl rlKey]⟩

/-- `_delete(rlKey)`: issues `DEL` directly — there is no readiness gate on
this path — and resolves `res > 0`. -/
def _delete (_c : Client) (_rej : Bool) (st : Store) (rlKey : String) : OpOutcome Bool :=
  let r := storeDel st rlKey
  ⟨.ok (decide (r.2 > 0)), r.1, [.del rlKey]⟩

/-- The caller-facing result record built by `_getRateLimiterRes`.
`consumedPoints`/`remainingPoints` are `Option Int` with `none` standing for
the JS NaN that `parseInt` yields on non-numeric input; `msBeforeNext` is
assigned the raw reply value unparsed. -/
structure RateLimiterRes where
  consumedPoints : Option Int
  isFirstInDuration : Bool
  remainingPoints : Option Int
  msBeforeNext : JsVal
deriving DecidableEq

/-- The record the normalizer builds from the (already unwrapped) scalar
positions: `consumedPoints = parseInt(consumed)`,
`isFirstInDuration = consumedPoints === changedPoints` (false on NaN),
`remainingPoints = Math.max(points - consumedPoints, 0)` (NaN-propagating),
and `msBeforeNext = resTtlMs` assigned raw. -/
def mkRateLimiterRes (points changedPoints : Int) (consumed resTtlMs : JsVal) :
    RateLimiterRes :=
  let cp := jsParseInt consumed
  { consumedPoints := cp
    isFirstInDuration := decide (cp = some changedPoints)
    remainingPoints := cp.map (fun n => max (points - n) 0)
    msBeforeNext := resTtlMs }

/-- Core of `_getRateLimiterRes` after `let [consumed, resTtlMs] = result`:
if `Array.isArray(consumed)` both positions are destructured to their second
element (which throws when `resTtlMs` is not iterable), then the record is
built from whatever the two positions now hold. -/
def _getRateLimiterResPair (points changedPoints : Int) (consumed0 resTtl0 : JsVal) :
    Except String RateLimiterRes :=
  let unwrapped : Except String (JsVal × JsVal) :=
    match consumed0 with
    | .arr cs => (jsSecondElem resTtl0).map (fun t => (cs.getD 1 .undefined, t))
    | _ => .ok (consumed0, resTtl0)
  unwrapped.map (fun p => mkRateLimiterRes points changedPoints p.1 p.2)

/-- `_getRateLimiterRes(rlKey, changedPoints, result)`: destructures the raw
reply into its first two positions (JS array/string destructuring; other
values are not iterable and throw) and normalizes them. -/
def _getRateLimiterRes (points changedPoints : Int) (result : JsVal) :
    Except String RateLimiterRes :=
  match result with
  | .arr xs => _getRateLimiterResPair points changedPoints (xs.getD 0 .undefined) (xs.getD 1 .undefined)
  | .str s => _getRateLimiterResPair points changedPoints (charAtJs s 0) (charAtJs s 1)
  | _ => .error "TypeError: value is not iterable"

/-- A sequence of zero-duration `_upsert` calls on one key, returning the final
store and the list of raw replies (errors are recorded as a null reply). -/
def upsertZeroSeq (c : Client) (rej : Bool) (st : Store) (k : String) :
    List Int → Store × List JsVal
  | [] => (st, [])
  | p :: ps =>
    let o := _upsert c rej st k p 0 false
    let rest := upsertZeroSeq c rej o.store k ps
    (rest.1, (match o.result with | .ok r => r | .error _ => .null) :: rest.2)

/-- A client with no health indicator at all (no `status` field, no
`isReady()`, no `defineCommand`), returning flat `multi` replies. -/
def clientFlat : Client := ⟨none, none, false, false⟩

/-- An ioredis-style client: `defineCommand` available and `multi` replies
wrapped as `[err, value]` pairs. -/
def clientWrapped : Client := ⟨none, none, true, true⟩

/-- An ioredis-style client whose connection reports a non-`"ready"` state. -/
def clientNotReady : Client := ⟨some "connecting", none, false, false⟩

/-- A store holding one key `"k"` with value `7` and 9000 ms of TTL left. -/
def storeK : Store := fun k => if k = "k" then some (7, some 9000) else none

/-- Inversion for `Except.map` landing on `ok`. -/
theorem except_map_eq_ok {ε α β : Type} {f : α → β} {e : Except ε α} {b : β}
    (h : e.map f = .ok b) : ∃ a, e = .ok a ∧ f a = b := by
  cases e with
  | ok a => exact ⟨a, rfl, by simpa [Except.map] using h⟩
  | error _ => simp [Except.map] at h

/-- `parseInt` on the `SET` reply string `"OK"` is NaN. -/
theorem jsParseInt_OK : jsParseInt (.str "OK") = none := by decide

/-- Normalizing a two-number reply, flat or uniformly wrapped, yields the
record built from the two scalars. -/
theorem getRateLimiterRes_num_num (q chg : Int) (w : Bool) (n t : Int) :
    _getRateLimiterRes q chg (.arr [wrapIf w (.num n), wrapIf w (.num t)])
      = .ok (mkRateLimiterRes q chg (.num n) (.num t)) := by
  cases w <;> simp [_getRateLimiterRes, _getRateLimiterResPair, wrapIf, jsSecondElem,
    Except.map]

/-- Normalizing a `SET/PTTL` reply (`"OK"` then a number), flat or uniformly
wrapped: `parseInt("OK")` is NaN, so `consumedPoints` and `remainingPoints`
are NaN and `isFirstInDuration` is false. -/
theorem getRateLimiterRes_ok_num (q chg : Int) (w : Bool) (t : Int) :
    _getRateLimiterRes q chg (.arr [wrapIf w (.str "OK"), wrapIf w (.num t)])
      = .ok ⟨none, false, none, .num t⟩ := by
  cases w <;>
    simp [_getRateLimiterRes, _getRateLimiterResPair, wrapIf, jsSecondElem, Except.map,
      mkRateLimiterRes, jsParseInt_OK]

/-- C1 (amended): when fast-fail mode is on and the connection reports
non-operational, `_upsert` and `_get` reject immediately with the
ConnectionNotReady error, leave the store untouched and issue no command;
`_delete`, however, never consults the readiness gate and issues its `DEL`
command regardless. -/
theorem readiness_gate_upsert_get_only (c : Client) (rej : Bool) (st : Store)
    (k : String) (p : Int) (ms : Nat) (fe : Bool)
    (h : _isRedisReady rej c = false) :
    (_upsert c rej st k p ms fe).result = .error .connectionNotReady ∧
    (_upsert c rej st k p ms fe).cmds = [] ∧
    (_upsert c rej st k p ms fe).store = st ∧
    (_get c rej st k).result = .error .connectionNotReady ∧
    (_get c rej st k).cmds = [] ∧
    (_get c rej st k).store = st ∧
    (_delete c rej st k).cmds = [Cmd.del k] := by
  refine ⟨?_, ?_, ?_, ?_, ?_, ?_, rfl⟩ <;> simp [_upsert, _get, h]

/-- C1 witness: a not-ready ioredis client under fast-fail mode. -/
theorem readiness_gate_upsert_get_only_witness :
    (_upsert clientNotReady true emptyStore "k" 5 2000 false).result
        = .error .connectionNotReady ∧
    (_upsert clientNotReady true emptyStore "k" 5 2000 false).cmds = [] ∧
    (_upsert clientNotReady true emptyStore "k" 5 2000 false).store = emptyStore ∧
    (_get clientNotReady true emptyStore "k").result = .error .connectionNotReady ∧
    (_get clientNotReady true emptyStore "k").cmds = [] ∧
    (_get clientNotReady true emptyStore "k").store = emptyStore ∧
    (_delete clientNotReady true emptyStore "k").cmds = [Cmd.del "k"] :=
  readiness_gate_upsert_get_only clientNotReady true emptyStore "k" 5 2000 false (by decide)

/-- C1 counterexample: with fast-fail on and the connection not ready,
`_delete` does not reject with ConnectionNotReady — it issues its `DEL`
command and resolves normally, so the claim fails for the delete operation. -/
theorem delete_skips_readiness_gate_cex :
    _isRedisReady true clientNotReady = false ∧
    (_delete clientNotReady true emptyStore "k").result = .ok false ∧
    (_delete clientNotReady true emptyStore "k").cmds = [Cmd.del "k"] := by
  decide

/-- C3 (amended): branch selection in `_upsert` is by
`secDuration = floor(durationMillis/1000)`, not by `durationMillis` itself:
with `forceExpire = false` the script (named command when registered, generic
eval otherwise) is invoked with `secDuration` exactly when `secDuration > 0`,
and the no-expiry `INCRBY/PTTL` batch is taken exactly when `secDuration = 0`
— which includes every `0 < durationMillis < 1000`; with `forceExpire = true`
the `SET` carries an `EX secDuration` expiry exactly when `secDuration > 0`. -/
theorem upsert_branch_selection (c : Client) (rej : Bool) (st : Store) (k : String)
    (p : Int) (ms : Nat) (h : _isRedisReady rej c = true) :
    (_upsert c rej st k p ms false).cmds =
      (if 0 < ms / 1000 then
        [if c.hasDefineCommand then Cmd.rlflxIncr k p (ms / 1000)
         else Cmd.evalScript incrTtlLuaScript 1 k p (ms / 1000)]
       else [Cmd.incrby k p, Cmd.pttl k]) ∧
    (_upsert c rej st k p ms true).cmds =
      [Cmd.set k p (if 0 < ms / 1000 then some (ms / 1000) else none), Cmd.pttl k] := by
  constructor <;> simp [_upsert, h] <;> split <;> rfl

/-- C3 witness: a ready client, a 2500 ms duration. -/
theorem upsert_branch_selection_witness :
    (_upsert clientFlat false emptyStore "k" 5 2500 false).cmds =
      (if 0 < 2500 / 1000 then
        [if clientFlat.hasDefineCommand then Cmd.rlflxIncr "k" 5 (2500 / 1000)
         else Cmd.evalScript incrTtlLuaScript 1 "k" 5 (2500 / 1000)]
       else [Cmd.incrby "k" 5, Cmd.pttl "k"]) ∧
    (_upsert clientFlat false emptyStore "k" 5 2500 true).cmds =
      [Cmd.set "k" 5 (if 0 < 2500 / 1000 then some (2500 / 1000) else none), Cmd.pttl "k"] :=
  upsert_branch_selection clientFlat false emptyStore "k" 5 2500 (by decide)

/-- C3 counterexample: at `durationMillis = 500 > 0` the no-expiry branch is
taken (claim says that happens only at `durationMillis == 0`): with
`forceExpire = false` the batch is `INCRBY/PTTL` and no script is invoked,
and with `forceExpire = true` the `SET` carries no expiry. -/
theorem upsert_branch_selection_cex :
    (500 : Nat) ≠ 0 ∧
    (_upsert clientFlat false emptyStore "k" 5 500 false).cmds
      = [Cmd.incrby "k" 5, Cmd.pttl "k"] ∧
    (_upsert clientFlat false emptyStore "k" 5 500 true).cmds
      = [Cmd.set "k" 5 none, Cmd.pttl "k"] := by
  decide

/-- C4 (amended): the normalizer detects the reply shape from the FIRST
position alone — when the first position is an array it destructures both
positions to their second element, and when the first position is flat it
takes both positions as they are.  Uniformly flat and uniformly wrapped
replies therefore normalize identically, but a mixed reply whose first
position is flat keeps the second position wrapped in `msBeforeNext`. -/
theorem normalizer_unwraps_on_first_position (q chg : Int) (m₁ m₂ c t : JsVal)
    (hc : isJsArray c = false) :
    _getRateLimiterResPair q chg (.arr [m₁, c]) (.arr [m₂, t])
      = _getRateLimiterResPair q chg c t ∧
    (_getRateLimiterResPair q chg c (.arr [m₂, t])).map (fun r => r.msBeforeNext)
      = .ok (.arr [m₂, t]) := by
  cases c <;>
    simp_all [isJsArray, _getRateLimiterResPair, jsSecondElem, Except.map, mkRateLimiterRes]

/-- C4 witness: a wrapped reply `((null,5),(null,9000))` normalizes like the
flat reply `(5, 9000)`, and a mixed reply keeps its wrapped second position. -/
theorem normalizer_unwraps_on_first_position_witness :
    _getRateLimiterResPair 10 5 (.arr [.null, .num 5]) (.arr [.null, .num 9000])
      = _getRateLimiterResPair 10 5 (.num 5) (.num 9000) ∧
    (_getRateLimiterResPair 10 5 (.num 5) (.arr [.null, .num 9000])).map
        (fun r => r.msBeforeNext)
      = .ok (.arr [.null, .num 9000]) :=
  normalizer_unwraps_on_first_position 10 5 .null .null (.num 5) (.num 9000) (by decide)

/-- C4 counterexample: the mixed reply `(5, (null, 9000))` — first position
flat, second wrapped — does NOT normalize to the same canonical output as the
flat reply `(5, 9000)`: the second position is left wrapped in
`msBeforeNext`, so the claimed position-independent detection fails. -/
theorem normalizer_mixed_reply_cex :
    _getRateLimiterResPair 10 5 (.num 5) (.arr [.null, .num 9000])
      = .ok ⟨some 5, true, some 5, .arr [.null, .num 9000]⟩ ∧
    _getRateLimiterResPair 10 5 (.num 5) (.num 9000)
      = .ok ⟨some 5, true, some 5, .num 9000⟩ ∧
    JsVal.arr [JsVal.null, JsVal.num 9000] ≠ JsVal.num 9000 := by
  decide

/-- C10: with fast-fail mode enabled but a client exposing neither a truthy
`status` field nor an `isReady` function, `_isRedisReady` returns true and
every operation proceeds to issue its store command instead of rejecting
with ConnectionNotReady. -/
theorem no_health_indicator_passes_gate (c : Client) (st : Store) (k : String)
    (p : Int) (ms : Nat) (fe : Bool)
    (hs : c.status = none ∨ c.status = some "") (hr : c.isReady = none) :
    _isRedisReady true c = true ∧
    (_upsert c true st k p ms fe).cmds ≠ [] ∧
    (_get c true st k).cmds = [Cmd.get k, Cmd.pttl k] ∧
    (_delete c true st k).cmds = [Cmd.del k] := by
  have hready : _isRedisReady true c = true := by
    rcases hs with hs | hs <;> simp [_isRedisReady, hs, hr]
  refine ⟨hready, ?_, ?_, rfl⟩
  · cases fe <;> rcases Nat.eq_zero_or_pos (ms / 1000) with hd | hd <;>
      simp [_upsert, hready, hd]
  · simp only [_get, hready]
    split
    · simp_all
    · split <;> rfl

/-- C10 witness: a client with no `status` field and no `isReady` function. -/
theorem no_health_indicator_passes_gate_witness :
    _isRedisReady true clientFlat = true ∧
    (_upsert clientFlat true emptyStore "k" 5 2000 false).cmds ≠ [] ∧
    (_get clientFlat true emptyStore "k").cmds = [Cmd.get "k", Cmd.pttl "k"] ∧
    (_delete clientFlat true emptyStore "k").cmds = [Cmd.del "k"] :=
  no_health_indicator_passes_gate clientFlat emptyStore "k" 5 2000 false (Or.inl rfl) rfl

/-- C9: the two script-invocation strategies — the named `rlflxIncr` command
registered at construction (when `defineCommand` exists) and the generic
`eval` of the raw script text — evaluate the same script text on the same key
and arguments, so for every key, points, durationSeconds and store state they
produce identical results and identical store-state effects; consequently the
script-path `_upsert` result and post-store do not depend on which strategy
the client supports. -/
theorem script_invocation_strategies_agree (w : Bool) (rej : Bool) (st : Store)
    (k : String) (p : Int) (d ms : Nat) :
    rlflxIncrCall ⟨none, none, true, w⟩ st k p d = evalCall st k p d ∧
    evalCall st k p d = some (incrTtlScriptSem st k p d) ∧
    (_upsert ⟨none, none, true, w⟩ rej st k p ms false).result
      = (_upsert ⟨none, none, false, w⟩ rej st k p ms false).result ∧
    (_upsert ⟨none, none, true, w⟩ rej st k p ms false).store
      = (_upsert ⟨none, none, false, w⟩ rej st k p ms false).store := by
  refine ⟨by simp [rlflxIncrCall, definedCommands, evalCall],
          by simp [evalCall, evalLua], ?_, ?_⟩ <;>
    rcases Nat.eq_zero_or_pos (ms / 1000) with hd | hd <;>
      simp [_upsert, _isRedisReady, hd]

/-- C8 is a code bug, evaluated here: for a client that wraps `multi` replies
as `[err, value]` pairs (ioredis), `_get` on an absent key does NOT resolve
the explicit not-found sentinel — the `points === null` test misses the
wrapped `[null, null]` reply, so the raw reply is resolved (and normalizing
it yields NaN `consumedPoints` rather than "not found").  A flat-reply client
on the same absent key does resolve not-found. -/
theorem get_wrapped_absent_resolves_raw :
    emptyStore "missing" = none ∧
    (_get clientWrapped true emptyStore "missing").result
      = .ok (some (.arr [.arr [.null, .null], .arr [.null, .num (-2)]])) ∧
    _getRateLimiterRes 10 0 (.arr [.arr [.null, .null], .arr [.null, .num (-2)]])
      = .ok ⟨none, false, none, .num (-2)⟩ ∧
    (_get clientFlat true emptyStore "missing").result = .ok none := by
  decide

/-- C2 (amended): `_upsert` with `forceExpire = true` unconditionally
overwrites the key's value with `points`, sets the TTL to
`floor(durationMillis/1000)` seconds when that floor is positive, and removes
the expiry otherwise — including when `0 < durationMillis < 1000`, not only
when the duration is 0.  The reply's first position is the `SET` reply
`"OK"`, which `parseInt` cannot parse, so the normalized result carries NaN
`consumedPoints` (not `points`) and `isFirstInDuration = false` (not true). -/
theorem upsert_forceExpire_behavior (c : Client) (rej : Bool) (st : Store) (k : String)
    (p : Int) (ms : Nat) (q : Int) (h : _isRedisReady rej c = true) :
    (_upsert c rej st k p ms true).store k
      = some (p, if 0 < ms / 1000 then some (1000 * (ms / 1000)) else none) ∧
    (_upsert c rej st k p ms true).result
      = .ok (.arr [wrapIf c.wrapsMultiReplies (.str "OK"),
          wrapIf c.wrapsMultiReplies
            (.num (if 0 < ms / 1000 then ((1000 * (ms / 1000) : Nat) : Int) else -1))]) ∧
    _getRateLimiterRes q p
        (.arr [wrapIf c.wrapsMultiReplies (.str "OK"),
          wrapIf c.wrapsMultiReplies
            (.num (if 0 < ms / 1000 then ((1000 * (ms / 1000) : Nat) : Int) else -1))])
      = .ok ⟨none, false, none,
          .num (if 0 < ms / 1000 then ((1000 * (ms / 1000) : Nat) : Int) else -1)⟩ := by
  refine ⟨?_, ?_, getRateLimiterRes_ok_num q p c.wrapsMultiReplies _⟩ <;>
    rcases Nat.eq_zero_or_pos (ms / 1000) with hd | hd <;>
      simp [_upsert, h, hd, storeSet, storePttl]

/-- C2 witness: a ready client, a prior record under the key, a 2000 ms
duration. -/
theorem upsert_forceExpire_behavior_witness :
    (_upsert clientFlat false storeK "k" 5 2000 true).store "k"
      = some (5, if 0 < 2000 / 1000 then some (1000 * (2000 / 1000)) else none) ∧
    (_upsert clientFlat false storeK "k" 5 2000 true).result
      = .ok (.arr [wrapIf clientFlat.wrapsMultiReplies (.str "OK"),
          wrapIf clientFlat.wrapsMultiReplies
            (.num (if 0 < 2000 / 1000 then ((1000 * (2000 / 1000) : Nat) : Int) else -1))]) ∧
    _getRateLimiterRes 10 5
        (.arr [wrapIf clientFlat.wrapsMultiReplies (.str "OK"),
          wrapIf clientFlat.wrapsMultiReplies
            (.num (if 0 < 2000 / 1000 then ((1000 * (2000 / 1000) : Nat) : Int) else -1))])
      = .ok ⟨none, false, none,
          .num (if 0 < 2000 / 1000 then ((1000 * (2000 / 1000) : Nat) : Int) else -1)⟩ :=
  upsert_forceExpire_behavior clientFlat false storeK "k" 5 2000 10 (by decide)

/-- C2 counterexample: a forced upsert of 5 points with `durationMillis = 500`
over a record `(7, ttl 9000)`: the expiry is removed although the duration is
not 0, and the normalized result has NaN `consumedPoints` (not 5) and
`isFirstInDuration = false` (not true), because the `SET` reply is `"OK"`. -/
theorem upsert_forceExpire_cex :
    storeK "k" = some (7, some 9000) ∧
    (500 : Nat) ≠ 0 ∧
    (_upsert clientFlat false storeK "k" 5 500 true).store "k" = some (5, none) ∧
    (_upsert clientFlat false storeK "k" 5 500 true).result
      = .ok (.arr [.str "OK", .num (-1)]) ∧
    _getRateLimiterRes 10 5 (.arr [.str "OK", .num (-1)])
      = .ok ⟨none, false, none, .num (-1)⟩ := by
  decide

/-- C6: every `RateLimiterRes` the normalizer produces from a store reply
satisfies `remainingPoints = max(points - consumedPoints, 0)` (with the JS
NaN propagation: NaN consumed gives NaN remaining), and `isFirstInDuration`
holds exactly when `consumedPoints` equals the points just added in this
call. -/
theorem operation_result_invariants (q chg : Int) (reply : JsVal) (res : RateLimiterRes)
    (h : _getRateLimiterRes q chg reply = .ok res) :
    res.remainingPoints = res.consumedPoints.map (fun n => max (q - n) 0) ∧
    (res.isFirstInDuration = true ↔ res.consumedPoints = some chg) := by
  have key : ∀ cv tv : JsVal, res = mkRateLimiterRes q chg cv tv →
      res.remainingPoints = res.consumedPoints.map (fun n => max (q - n) 0) ∧
      (res.isFirstInDuration = true ↔ res.consumedPoints = some chg) := by
    rintro cv tv rfl
    exact ⟨rfl, by simp [mkRateLimiterRes]⟩
  have pairShape : ∀ c0 t0 : JsVal, _getRateLimiterResPair q chg c0 t0 = .ok res →
      ∃ cv tv, res = mkRateLimiterRes q chg cv tv := by
    intro c0 t0 hp
    simp only [_getRateLimiterResPair] at hp
    rcases except_map_eq_ok hp with ⟨pr, _, hmk⟩
    exact ⟨pr.1, pr.2, hmk.symm⟩
  cases reply with
  | arr xs =>
    simp only [_getRateLimiterRes] at h
    rcases pairShape _ _ h with ⟨cv, tv, hres⟩
    exact key cv tv hres
  | str s =>
    simp only [_getRateLimiterRes] at h
    rcases pairShape _ _ h with ⟨cv, tv, hres⟩
    exact key cv tv hres
  | num n => simp [_getRateLimiterRes] at h
  | null => simp [_getRateLimiterRes] at h
  | undefined => simp [_getRateLimiterRes] at h

/-- C6 witness: the reply `(5, 9000)` under quota 10 with 5 points added. -/
theorem operation_result_invariants_witness :
    (⟨some 5, true, some 5, .num 9000⟩ : RateLimiterRes).remainingPoints
      = (⟨some 5, true, some 5, .num 9000⟩ : RateLimiterRes).consumedPoints.map
          (fun n => max (10 - n) 0) ∧
    ((⟨some 5, true, some 5, .num 9000⟩ : RateLimiterRes).isFirstInDuration = true ↔
      (⟨some 5, true, some 5, .num 9000⟩ : RateLimiterRes).consumedPoints = some 5) :=
  operation_result_invariants 10 5 (.arr [.num 5, .num 9000])
    ⟨some 5, true, some 5, .num 9000⟩ (by decide)

/-- The script on an absent key: `SET NX` creates `(0, d seconds)`, the
increment yields `points`, and the reported TTL is `1000*d` ms. -/
theorem incrTtlScriptSem_fresh (st : Store) (k : String) (p : Int) (d : Nat)
    (hfresh : st k = none) :
    (incrTtlScriptSem st k p d).2.1 = p ∧
    (incrTtlScriptSem st k p d).2.2 = ((1000 * d : Nat) : Int) ∧
    (incrTtlScriptSem st k p d).1 k = some (p, some (1000 * d)) := by
  unfold incrTtlScriptSem
  rw [hfresh]
  simp [storeSet, storeIncrby, storePttl]
  split
  · exfalso; omega
  · simp

/-- The script on a live key carrying an expiry: `SET NX` is a no-op, the
increment adds to the value keeping the TTL, and the TTL-repair branch is not
taken. -/
theorem incrTtlScriptSem_live (st : Store) (k : String) (p : Int) (d : Nat)
    (v : Int) (t : Nat) (hlive : st k = some (v, some t)) :
    (incrTtlScriptSem st k p d).2.1 = v + p ∧
    (incrTtlScriptSem st k p d).2.2 = (t : Int) ∧
    (incrTtlScriptSem st k p d).1 k = some (v + p, some t) := by
  unfold incrTtlScriptSem
  rw [hlive]
  simp [storeIncrby, storePttl, hlive]

/-- C5 (amended): for `points₁ > 0`, `points₂ ≥ 0` and `durationMillis ≥ 1000`
(so that `floor(durationMillis/1000) > 0` and the script path runs at all),
the first `_upsert` on a fresh key replies `(points₁, 1000*floor(ms/1000))` —
the TTL is the duration rounded DOWN to whole seconds, not `durationMillis`
itself — normalizing to `consumedPoints = points₁`, `isFirstInDuration =
true` and that rounded `msBeforeNext`; a second `_upsert` after `e` ms (before
expiry) replies `(points₁ + points₂, remaining TTL)`, normalizing to
`consumedPoints = points₁ + points₂` and `isFirstInDuration = false`. -/
theorem upsert_fresh_then_second (c : Client) (rej : Bool) (st : Store) (k : String)
    (p₁ p₂ : Int) (ms e : Nat) (q : Int)
    (hready : _isRedisReady rej c = true) (hfresh : st k = none)
    (hms : 1000 ≤ ms) (hp₁ : 0 < p₁) (hp₂ : 0 ≤ p₂)
    (he : e < 1000 * (ms / 1000)) :
    (_upsert c rej st k p₁ ms false).result
      = .ok (.arr [.num p₁, .num ((1000 * (ms / 1000) : Nat) : Int)]) ∧
    _getRateLimiterRes q p₁ (.arr [.num p₁, .num ((1000 * (ms / 1000) : Nat) : Int)])
      = .ok ⟨some p₁, true, some (max (q - p₁) 0),
          .num ((1000 * (ms / 1000) : Nat) : Int)⟩ ∧
    (_upsert c rej (elapse e (_upsert c rej st k p₁ ms false).store) k p₂ ms false).result
      = .ok (.arr [.num (p₁ + p₂), .num ((1000 * (ms / 1000) - e : Nat) : Int)]) ∧
    _getRateLimiterRes q p₂
        (.arr [.num (p₁ + p₂), .num ((1000 * (ms / 1000) - e : Nat) : Int)])
      = .ok ⟨some (p₁ + p₂), false, some (max (q - (p₁ + p₂)) 0),
          .num ((1000 * (ms / 1000) - e : Nat) : Int)⟩ := by
  have hd : 0 < ms / 1000 := by omega
  obtain ⟨hc1, ht1, hs1⟩ := incrTtlScriptSem_fresh st k p₁ (ms / 1000) hfresh
  have hlive : (elapse e (incrTtlScriptSem st k p₁ (ms / 1000)).1) k
      = some (p₁, some (1000 * (ms / 1000) - e)) := by
    simp only [elapse, hs1]
    rw [if_neg (by omega : ¬(1000 * (ms / 1000) ≤ e))]
  obtain ⟨hc2, ht2, hs2⟩ :=
    incrTtlScriptSem_live _ k p₂ (ms / 1000) p₁ (1000 * (ms / 1000) - e) hlive
  refine ⟨?_, ?_, ?_, ?_⟩
  · simp [_upsert, hready, hd, hc1, ht1]
  · simp [_getRateLimiterRes, _getRateLimiterResPair, mkRateLimiterRes, jsParseInt,
      Except.map]
  · simp [_upsert, hready, hd, hc2, ht2]
  · have hne : ¬(p₁ + p₂ = p₂) := by omega
    simp [_getRateLimiterRes, _getRateLimiterResPair, mkRateLimiterRes, jsParseInt,
      Except.map, hne]

/-- C5 witness: 5 then 3 points, 2500 ms duration, 300 ms elapsed between
the two calls. -/
theorem upsert_fresh_then_second_witness :
    (_upsert clientFlat false emptyStore "k" 5 2500 false).result
      = .ok (.arr [.num 5, .num ((1000 * (2500 / 1000) : Nat) : Int)]) ∧
    _getRateLimiterRes 10 5 (.arr [.num 5, .num ((1000 * (2500 / 1000) : Nat) : Int)])
      = .ok ⟨some 5, true, some (max (10 - 5) 0),
          .num ((1000 * (2500 / 1000) : Nat) : Int)⟩ ∧
    (_upsert clientFlat false
        (elapse 300 (_upsert clientFlat false emptyStore "k" 5 2500 false).store)
        "k" 3 2500 false).result
      = .ok (.arr [.num (5 + 3), .num ((1000 * (2500 / 1000) - 300 : Nat) : Int)]) ∧
    _getRateLimiterRes 10 3
        (.arr [.num (5 + 3), .num ((1000 * (2500 / 1000) - 300 : Nat) : Int)])
      = .ok ⟨some (5 + 3), false, some (max (10 - (5 + 3)) 0),
          .num ((1000 * (2500 / 1000) - 300 : Nat) : Int)⟩ :=
  upsert_fresh_then_second clientFlat false emptyStore "k" 5 3 2500 300 10
    (by decide) rfl (by omega) (by omega) (by omega) (by omega)

/-- C5 counterexample: (i) at `durationMillis = 500 > 0` the first upsert on a
fresh key replies a `-1` TTL (no expiry at all), not anything near 500 ms,
because `floor(500/1000) = 0` sends the call down the no-expiry `INCRBY`
branch; (ii) with `points₁ = 0` (allowed by the claim's `points >= 0`), a
second upsert before expiry normalizes with `isFirstInDuration = true`, not
false, since `0 + 3 = 3` equals the points just added. -/
theorem upsert_fresh_then_second_cex :
    (0 : Nat) < 500 ∧
    emptyStore "k" = none ∧
    (_upsert clientFlat false emptyStore "k" 5 500 false).result
      = .ok (.arr [.num 5, .num (-1)]) ∧
    ((-1 : Int) ≠ 500) ∧
    (_upsert clientFlat false
        (_upsert clientFlat false emptyStore "k" 0 2000 false).store "k" 3 2000 false).result
      = .ok (.arr [.num 3, .num 2000]) ∧
    _getRateLimiterRes 10 3 (.arr [.num 3, .num 2000])
      = .ok ⟨some 3, true, some 7, .num 2000⟩ := by
  decide

/-- Invariant for repeated zero-duration upserts: starting from a key holding
`(v, no expiry)`, the final value is `v` plus the sum of all points and still
has no expiry, and every reply is a `(value, -1)` pair in the client's `multi`
reply shape. -/
theorem upsertZeroSeq_invariant (c : Client) (rej : Bool) (k : String)
    (hready : _isRedisReady rej c = true) :
    ∀ (ps : List Int) (st : Store) (v : Int), st k = some (v, none) →
      (upsertZeroSeq c rej st k ps).1 k = some (v + ps.sum, none) ∧
      ∀ r ∈ (upsertZeroSeq c rej st k ps).2, ∃ n : Int,
        r = .arr [wrapIf c.wrapsMultiReplies (.num n),
                  wrapIf c.wrapsMultiReplies (.num (-1))] := by
  intro ps
  induction ps with
  | nil => intro st v hv; simpa [upsertZeroSeq] using hv
  | cons p ps ih =>
    intro st v hv
    have hstep : (_upsert c rej st k p 0 false).store k = some (v + p, none) ∧
        (_upsert c rej st k p 0 false).result
          = .ok (.arr [wrapIf c.wrapsMultiReplies (.num (v + p)),
                       wrapIf c.wrapsMultiReplies (.num (-1))]) := by
      constructor <;> simp [_upsert, hready, storeIncrby, hv, storePttl]
    obtain ⟨ihs, ihr⟩ := ih (_upsert c rej st k p 0 false).store (v + p) hstep.1
    constructor
    · simp only [upsertZeroSeq]
      rw [ihs, List.sum_cons]
      rw [show v + p + ps.sum = v + (p + ps.sum) by ring]
    · simp only [upsertZeroSeq]
      intro r hr
      rcases List.mem_cons.mp hr with hhead | htail
      · exact ⟨v + p, by rw [hhead, hstep.2]⟩
      · exact ihr r htail

/-- C7: a zero-duration `_upsert` with `forceExpire = false` issues the
batched `INCRBY` then `PTTL` transaction; starting from a fresh key, repeated
zero-duration upserts accumulate the counter to the sum of all points with no
expiry ever attached, every reply normalizes with `msBeforeNext = -1`, and
the key persists until an explicit `_delete` removes it. -/
theorem upsert_zero_duration_accumulates (c : Client) (rej : Bool) (st : Store)
    (k : String) (p q chg p₀ : Int) (ps : List Int)
    (hready : _isRedisReady rej c = true) (hfresh : st k = none) :
    (_upsert c rej st k p 0 false).cmds = [Cmd.incrby k p, Cmd.pttl k] ∧
    (upsertZeroSeq c rej st k (p₀ :: ps)).1 k = some (p₀ + ps.sum, none) ∧
    (∀ r ∈ (upsertZeroSeq c rej st k (p₀ :: ps)).2, ∃ res,
        _getRateLimiterRes q chg r = .ok res ∧ res.msBeforeNext = .num (-1)) ∧
    (upsertZeroSeq c rej st k (p₀ :: ps)).1 k ≠ none ∧
    (_delete c rej (upsertZeroSeq c rej st k (p₀ :: ps)).1 k).store k = none := by
  have hstep : (_upsert c rej st k p₀ 0 false).store k = some (p₀, none) ∧
      (_upsert c rej st k p₀ 0 false).result
        = .ok (.arr [wrapIf c.wrapsMultiReplies (.num p₀),
                     wrapIf c.wrapsMultiReplies (.num (-1))]) := by
    constructor <;> simp [_upsert, hready, storeIncrby, hfresh, storePttl]
  obtain ⟨ihs, ihr⟩ := upsertZeroSeq_invariant c rej k hready ps
      (_upsert c rej st k p₀ 0 false).store p₀ hstep.1
  have hsum : (upsertZeroSeq c rej st k (p₀ :: ps)).1 k = some (p₀ + ps.sum, none) := by
    simp only [upsertZeroSeq]
    exact ihs
  refine ⟨by simp [_upsert, hready], hsum, ?_, ?_, ?_⟩
  · have hshape : ∀ r ∈ (upsertZeroSeq c rej st k (p₀ :: ps)).2, ∃ n : Int,
        r = .arr [wrapIf c.wrapsMultiReplies (.num n),
                  wrapIf c.wrapsMultiReplies (.num (-1))] := by
      simp only [upsertZeroSeq]
      intro r hr
      rcases List.mem_cons.mp hr with hhead | htail
      · exact ⟨p₀, by rw [hhead, hstep.2]⟩
      · exact ihr r htail
    intro r hr
    obtain ⟨n, rfl⟩ := hshape r hr
    exact ⟨mkRateLimiterRes q chg (.num n) (.num (-1)),
      getRateLimiterRes_num_num q chg c.wrapsMultiReplies n (-1), rfl⟩
  · rw [hsum]; exact fun h => Option.noConfusion h
  · simp only [_delete, storeDel, hsum]
    simp

/-- C7 witness: two zero-duration upserts of 2 then 3 points on a fresh key. -/
theorem upsert_zero_duration_accumulates_witness :
    (_upsert clientFlat false emptyStore "k" 2 0 false).cmds
      = [Cmd.incrby "k" 2, Cmd.pttl "k"] ∧
    (upsertZeroSeq clientFlat false emptyStore "k" (2 :: [3])).1 "k"
      = some (2 + [3].sum, none) ∧
    (∀ r ∈ (upsertZeroSeq clientFlat false emptyStore "k" (2 :: [3])).2, ∃ res,
        _getRateLimiterRes 10 3 r = .ok res ∧ res.msBeforeNext = .num (-1)) ∧
    (upsertZeroSeq clientFlat false emptyStore "k" (2 :: [3])).1 "k" ≠ none ∧
    (_delete clientFlat false
        (upsertZeroSeq clientFlat false emptyStore "k" (2 :: [3])).1 "k").store "k"
      = none :=
  upsert_zero_duration_accumulates clientFlat false emptyStore "k" 2 10 3 2 [3]
    (by decide) rfl
